import Mathlib

/-!
Verification development for the axis-graphql RPC bridge.

The definitions below are a shallow embedding of the Go sources:

* the resilient block-header subscription worker `observeBlocks` together
  with its helper `blockSubscription` (file with `observeBlocks`,
  `blockSubscription`, `axisHeadsObserverSubscribeTick`);
* the SFC read accessors `StakeUnlockPenalty` and `PendingRewards`;
* the decimals-correction loop of `pullDefiDecimalCorrection`
  (internal/repository/rpc/defi_settings.go).

The worker is embedded as a deterministic step function over an
environment-chosen trace of wait-point events; all side-effect counters
(teardown calls, join-token releases, open attempts, timers created) are
carried in the state so that the lifecycle claims become statements about
runs of the step function.
-/

namespace AxisGraphql

/-- Errors produced by external collaborators (ABI packing, RPC calls,
contract bindings) are opaque to the bridge; we model them as strings. -/
abbrev GoError := String

/-! ## Block observer worker -/

/-- Time between subscription attempts, in nanoseconds.
Source: `const axisHeadsObserverSubscribeTick = 30 * time.Second`. -/
def axisHeadsObserverSubscribeTick : Nat := 30 * 1000000000

/-- Embedding of `blockSubscription`: the `EthSubscribe` outcome is the
input; on error the function logs and returns the nil subscription (`none`),
on success it returns the live handle. The error is never propagated:
the return type carries no error component, exactly as in the source. -/
def blockSubscription (r : Except GoError Nat) : Option Nat :=
  match r with
  | .error _ => none
  | .ok s => some s

/-- One event consumed by the worker at a wait point.

* `shutdown` — `axis.sigClose` fires (possible at both waits);
* `timer ok` — the retry timer `tm.C` fires and the subsequent
  `blockSubscription` call yields a live handle iff `ok` (possible only at
  the unsubscribed wait);
* `streamErr` — the live subscription's `sub.Err()` channel fires
  (possible only at the subscribed wait). -/
inductive Ev where
  | shutdown : Ev
  | timer (ok : Bool) : Ev
  | streamErr : Ev
deriving DecidableEq, Repr

/-- State of the `observeBlocks` worker.  `sub` records whether the local
variable `sub` holds a live handle (`sub ≠ nil`); `finished` whether the
function has returned (running its deferred cleanup on the way out).  The
remaining fields count observable side effects: `unsubCalls` the number of
`sub.Unsubscribe()` invocations, `doneCalls` the number of `axis.wg.Done()`
invocations, `openAttempts` the number of `blockSubscription` calls, and
`timersCreated` the number of `time.NewTimer` calls. -/
structure WorkerState where
  sub : Bool
  finished : Bool
  unsubCalls : Nat
  doneCalls : Nat
  openAttempts : Nat
  timersCreated : Nat
deriving DecidableEq, Repr

/-- State right after `sub = axis.blockSubscription()` (the initial open
attempt before the loop): one open attempt has happened, `sub` is live iff
that attempt succeeded, nothing has been torn down or released. -/
def initState (openOk : Bool) : WorkerState :=
  { sub := openOk, finished := false, unsubCalls := 0, doneCalls := 0,
    openAttempts := 1, timersCreated := 0 }

/-- One wait-point evaluation of the `observeBlocks` loop.

If the worker has returned, nothing more happens.  Otherwise, when `sub`
is nil the loop creates a fresh timer (`timersCreated` grows on every
event consumed at this wait) and selects on {`sigClose`, `tm.C`}: shutdown
runs the deferred cleanup (no `Unsubscribe`, since `sub == nil`; one
`wg.Done()`), a timer fire performs the next `blockSubscription` call.
When `sub` is live the loop selects on {`sigClose`, `sub.Err()`}: shutdown
runs the deferred cleanup (`sub != nil`, so one `Unsubscribe` plus one
`wg.Done()`), a stream error merely drops the handle (`sub = nil`).
Events that have no channel to fire on at the current wait (`streamErr`
while unsubscribed, `timer` while subscribed) cannot occur and are
modelled as stutters. -/
def step (s : WorkerState) (e : Ev) : WorkerState :=
  if s.finished then s
  else if s.sub then
    match e with
    | .shutdown =>
        { s with finished := true, unsubCalls := s.unsubCalls + 1,
                 doneCalls := s.doneCalls + 1 }
    | .streamErr => { s with sub := false }
    | .timer _ => s
  else
    match e with
    | .shutdown =>
        { s with finished := true, doneCalls := s.doneCalls + 1,
                 timersCreated := s.timersCreated + 1 }
    | .timer ok =>
        { s with sub := ok, openAttempts := s.openAttempts + 1,
                 timersCreated := s.timersCreated + 1 }
    | .streamErr => s

/-- A run of the worker: the initial open attempt, then the loop consuming
the event trace chosen by the environment. -/
def run (openOk : Bool) (evs : List Ev) : WorkerState :=
  evs.foldl step (initState openOk)

/-- Event trace realizing K open failures followed by a success: for K = 0
the initial open already succeeds; for K ≥ 1 the initial open fails, the
next K - 1 retry timers fire with failing opens, and the K-th retry timer
fires with a succeeding open. -/
def retryTrace : Nat → List Ev
  | 0 => []
  | K + 1 => List.replicate K (Ev.timer false) ++ [Ev.timer true]

/-! ## Helper lemmas about the worker -/

/-- A step sets `finished` exactly when the worker was already finished or
the event is the shutdown signal. -/
lemma step_finished (s : WorkerState) (e : Ev) :
    (step s e).finished = (s.finished || e == Ev.shutdown) := by
  cases e <;> simp only [step] <;> split_ifs <;> simp_all

/-- Folding the step function accumulates `finished` as a disjunction over
the trace. -/
lemma foldl_finished (evs : List Ev) (s : WorkerState) :
    (evs.foldl step s).finished = (s.finished || evs.any fun e => e == Ev.shutdown) := by
  induction evs generalizing s with
  | nil => simp
  | cons e rest ih =>
      simp only [List.foldl_cons, List.any_cons]
      rw [ih, step_finished]
      cases s.finished <;> simp

/-- Cleanup accounting invariant: the join token is released exactly when
the worker has returned, and the teardown has run exactly when the worker
has returned while holding a live handle. -/
def cleanupInv (s : WorkerState) : Prop :=
  s.doneCalls = (if s.finished then 1 else 0) ∧
  s.unsubCalls = (if s.finished && s.sub then 1 else 0)

/-- The step function preserves the cleanup accounting invariant. -/
lemma step_cleanupInv (s : WorkerState) (e : Ev) (h : cleanupInv s) :
    cleanupInv (step s e) := by
  obtain ⟨h1, h2⟩ := h
  cases e <;> simp only [cleanupInv, step] <;> split_ifs <;> simp_all

/-- Every retry open attempt is paid for by a freshly created timer. -/
lemma step_openAttempts_le (s : WorkerState) (e : Ev)
    (h : s.openAttempts ≤ 1 + s.timersCreated) :
    (step s e).openAttempts ≤ 1 + (step s e).timersCreated := by
  cases e <;> simp only [step] <;> split_ifs <;> simp_all <;> omega

/-- Evaluating the loop on n consecutive failing retries from an
unsubscribed, unfinished state: the worker stays unsubscribed and
unfinished, performs n more open attempts and creates n fresh timers. -/
lemma foldl_replicate_fail (n : Nat) (u d o t : Nat) :
    (List.replicate n (Ev.timer false)).foldl step
        ⟨false, false, u, d, o, t⟩ = ⟨false, false, u, d, o + n, t + n⟩ := by
  induction n generalizing o t with
  | zero => simp
  | succ n ih =>
      rw [List.replicate_succ, List.foldl_cons]
      show (List.replicate n (Ev.timer false)).foldl step
          ⟨false, false, u, d, o + 1, t + 1⟩ = _
      rw [ih]
      congr 1 <;> omega

/-- A run consisting of K failing retries after a failing initial open. -/
lemma run_replicate_fail (K : Nat) :
    run false (List.replicate K (Ev.timer false)) =
      ⟨false, false, 0, 0, K + 1, K⟩ := by
  show (List.replicate K (Ev.timer false)).foldl step ⟨false, false, 0, 0, 1, 0⟩ = _
  rw [foldl_replicate_fail]
  congr 1 <;> omega

/-! ## Claims about the worker -/

/-- C1: on every run of the worker, over every interleaving of stream
failures, timer fires and the shutdown signal, `wg.Done()` has been called
exactly once iff the worker has exited (zero times before), and
`sub.Unsubscribe()` has been called exactly once iff the worker exited
while holding a live handle — in particular at most once overall, and
never when no live handle existed at exit. -/
theorem c1_exit_cleanup_exactly_once (openOk : Bool) (evs : List Ev) :
    (run openOk evs).doneCalls = (if (run openOk evs).finished then 1 else 0) ∧
    (run openOk evs).unsubCalls
      = (if (run openOk evs).finished && (run openOk evs).sub then 1 else 0) := by
  have base : cleanupInv (initState openOk) := by
    constructor <;> simp [initState]
  have main : ∀ l : List Ev, ∀ s : WorkerState, cleanupInv s → cleanupInv (l.foldl step s) := by
    intro l
    induction l with
    | nil => intro s h; exact h
    | cons e rest ih =>
        intro s h
        exact ih _ (step_cleanupInv s e h)
  exact main evs (initState openOk) base

/-- C2: the worker terminates only via the shutdown signal: a run has
returned iff its event trace contains the shutdown event; no sequence of
open failures and stream failures alone ever makes the worker exit. -/
theorem c2_exit_only_on_shutdown (openOk : Bool) (evs : List Ev) :
    (run openOk evs).finished = true ↔ Ev.shutdown ∈ evs := by
  rw [run, foldl_finished]
  simp [initState, List.any_eq_true]

/-- C3: a failed open attempt is absorbed and retried forever:
`blockSubscription` turns every open error into a nil handle (its return
type has no error component, so the error cannot reach a caller), a run of
K consecutive failing retries leaves the worker alive, unsubscribed, with
K + 1 open attempts each retry behind its own fresh timer delay, and after
any such run the next timer fire performs another open attempt. -/
theorem c3_open_failure_absorbed_and_retried :
    (∀ e : GoError, blockSubscription (Except.error e) = none) ∧
    (∀ K : Nat, run false (List.replicate K (Ev.timer false)) =
        ⟨false, false, 0, 0, K + 1, K⟩) ∧
    (∀ K : Nat, ∀ ok : Bool,
      (step (run false (List.replicate K (Ev.timer false))) (Ev.timer ok)).openAttempts
        = K + 2) := by
  refine ⟨fun e => rfl, run_replicate_fail, fun K ok => ?_⟩
  rw [run_replicate_fail]
  simp [step]

/-- C4: when the subscription's error channel fires while subscribed, the
worker only drops the handle reference — no teardown runs, no exit, no
immediate reopen — it becomes unsubscribed; the next open attempt happens
only once a fresh retry timer has fired (one full retry delay later), and
no event other than a timer fire can trigger an open attempt from the
unsubscribed wait. -/
theorem c4_stream_failure_drops_handle_then_waits (s : WorkerState)
    (h1 : s.finished = false) (h2 : s.sub = true) :
    step s Ev.streamErr = { s with sub := false } ∧
    (∀ ok : Bool, step { s with sub := false } (Ev.timer ok) =
      { s with sub := ok, openAttempts := s.openAttempts + 1,
               timersCreated := s.timersCreated + 1 }) ∧
    (∀ e : Ev, (step { s with sub := false } e).openAttempts ≠ s.openAttempts →
      ∃ ok : Bool, e = Ev.timer ok) := by
  refine ⟨by simp [step, h1, h2], fun ok => by simp [step, h1], fun e => ?_⟩
  cases e with
  | shutdown => intro h; exact absurd (by simp [step, h1]) h
  | timer ok => intro _; exact ⟨ok, rfl⟩
  | streamErr => intro h; exact absurd (by simp [step, h1]) h

/-- Witness for c4_stream_failure_drops_handle_then_waits at the state
reached by a successful initial open. -/
theorem c4_witness :
    step (initState true) Ev.streamErr = { initState true with sub := false } :=
  (c4_stream_failure_drops_handle_then_waits (initState true) rfl rfl).1

/-- C5: the retry delay is the fixed constant 30 seconds; on every run the
worker performs at most one open attempt per timer (beyond the initial
attempt, openAttempts never exceeds 1 + timersCreated), and at the
unsubscribed wait every consumed event — timer fire or shutdown — comes
with a freshly created single-shot timer, never a reused one. -/
theorem c5_no_busy_spin_fresh_timer :
    axisHeadsObserverSubscribeTick = 30 * 1000000000 ∧
    (∀ (openOk : Bool) (evs : List Ev),
      (run openOk evs).openAttempts ≤ 1 + (run openOk evs).timersCreated) ∧
    (∀ s : WorkerState, s.finished = false → s.sub = false →
      (∀ ok : Bool, (step s (Ev.timer ok)).timersCreated = s.timersCreated + 1) ∧
      (step s Ev.shutdown).timersCreated = s.timersCreated + 1) := by
  refine ⟨rfl, fun openOk evs => ?_, fun s h1 h2 => ?_⟩
  · have main : ∀ l : List Ev, ∀ s : WorkerState,
        s.openAttempts ≤ 1 + s.timersCreated →
        (l.foldl step s).openAttempts ≤ 1 + (l.foldl step s).timersCreated := by
      intro l
      induction l with
      | nil => intro s h; exact h
      | cons e rest ih => intro s h; exact ih _ (step_openAttempts_le s e h)
    exact main evs (initState openOk) (by simp [initState])
  · exact ⟨fun ok => by simp [step, h1, h2], by simp [step, h1, h2]⟩

/-- Witness for c5_no_busy_spin_fresh_timer at a failed initial open. -/
theorem c5_witness :
    (step (initState false) Ev.shutdown).timersCreated
      = (initState false).timersCreated + 1 :=
  (c5_no_busy_spin_fresh_timer.2.2 (initState false) rfl rfl).2

/-- C6: from any unfinished worker state, the very next wait-point
evaluation after the shutdown signal fires returns and runs the deferred
cleanup: the worker is finished, the join token is released there, and the
teardown runs there exactly when a live handle is held — with no further
blocking on a healthy stream. -/
theorem c6_shutdown_prompt (s : WorkerState) (h : s.finished = false) :
    (step s Ev.shutdown).finished = true ∧
    (step s Ev.shutdown).doneCalls = s.doneCalls + 1 ∧
    (s.sub = true → (step s Ev.shutdown).unsubCalls = s.unsubCalls + 1) ∧
    (s.sub = false → (step s Ev.shutdown).unsubCalls = s.unsubCalls) := by
  by_cases hs : s.sub = true
  · exact ⟨by simp [step, h, hs], by simp [step, h, hs],
      fun _ => by simp [step, h, hs], fun hc => by simp [hs] at hc⟩
  · replace hs : s.sub = false := by simpa using hs
    exact ⟨by simp [step, h, hs], by simp [step, h, hs],
      fun hc => by simp [hs] at hc, fun _ => by simp [step, h, hs]⟩

/-- Witness for c6_shutdown_prompt at the subscribed initial state. -/
theorem c6_witness :
    (step (initState true) Ev.shutdown).finished = true ∧
    (step (initState true) Ev.shutdown).unsubCalls = (initState true).unsubCalls + 1 :=
  ⟨(c6_shutdown_prompt (initState true) rfl).1,
    (c6_shutdown_prompt (initState true) rfl).2.2.1 rfl⟩

/-- C7: when the open attempts fail K times and then succeed with no
shutdown signal, the worker ends subscribed and alive after exactly K + 1
open attempts (K retries), each retry waiting on its own fresh retry timer
— one full retry delay between consecutive attempts. -/
theorem c7_retry_persistence (K : Nat) :
    run (K == 0) (retryTrace K) = ⟨true, false, 0, 0, K + 1, K⟩ := by
  cases K with
  | zero => rfl
  | succ K =>
      show (List.replicate K (Ev.timer false) ++ [Ev.timer true]).foldl step
          ⟨false, false, 0, 0, 1, 0⟩ = _
      rw [List.foldl_append, foldl_replicate_fail]
      show (⟨true, false, 0, 0, 1 + K + 1, 0 + K + 1⟩ : WorkerState) = _
      congr 1 <;> omega

/-! ## SFC read accessors -/

/-- Big-endian interpretation of a byte slice as an unsigned integer,
embedding `new(big.Int).SetBytes(data)`. -/
def bigIntSetBytes (data : List Nat) : Nat :=
  data.foldl (fun acc b => acc * 256 + b) 0

/-- Embedding of `StakeUnlockPenalty`.  The external collaborators are
inputs: `packResult` is the outcome of `SfcAbi().Pack("unlockStake", ...)`
(packed call data on success), `callContract` maps the packed call data to
the outcome of `eth.CallContract`.  The result pairs the returned penalty
value (`nil` = `none`) with the returned error (`nil` = `none`).  In the
length-check branch the source executes `return nil, err` where `err` is
the error of the `CallContract` call that just succeeded — a nil error —
hence the `(none, none)` result. -/
def StakeUnlockPenalty (packResult : Except GoError (List Nat))
    (callContract : List Nat → Except GoError (List Nat)) :
    Option Nat × Option GoError :=
  match packResult with
  | .error e => (none, some e)
  | .ok cd =>
      match callContract cd with
      | .error e => (none, some e)
      | .ok data =>
          if data.length ≠ 32 then
            (none, none)
          else
            (some (bigIntSetBytes data), none)

/-- Record embedded from `types.PendingRewards` (the fields populated by
the accessor: delegator address, staker id, amount). Addresses and big
integers are modelled as naturals. -/
structure PendingRewardsRec where
  address : Nat
  staker : Nat
  amount : Nat
deriving DecidableEq, Repr

/-- Embedding of `PendingRewards`: an empty record with the given address
and staker id and zero amount is prepared; if the contract call (given as
input `callResult`) fails the empty record is returned with a nil error,
otherwise the amount is updated from the call. -/
def PendingRewards (addr valID : Nat) (callResult : Except GoError Nat) :
    PendingRewardsRec × Option GoError :=
  let pr : PendingRewardsRec := { address := addr, staker := valID, amount := 0 }
  match callResult with
  | .error _ => (pr, none)
  | .ok amo => ({ pr with amount := amo }, none)

/-! ## DeFi decimals correction -/

/-- Embedding of the loop of `pullDefiDecimalCorrection`
(defi_settings.go lines 84-89): starting from the fetched unsigned value,
divide by 10 while the value exceeds 1, counting the divisions. -/
def pullDefiDecimalCorrection (value : Nat) : Nat :=
  if h : 1 < value then pullDefiDecimalCorrection (value / 10) + 1 else 0
termination_by value
decreasing_by exact Nat.div_lt_self (by omega) (by norm_num)

/-! ## Claims about the accessors and the decimals loop -/

/-- C8: whenever the ABI packing succeeds and the contract call succeeds
but returns data whose length differs from 32 bytes, `StakeUnlockPenalty`
returns a nil penalty value together with the nil error left over from the
preceding successful call — so for such inputs it returns `(nil, nil)`
rather than a non-nil error. -/
theorem c8_length_check_returns_nil_nil (cd : List Nat)
    (callContract : List Nat → Except GoError (List Nat)) (data : List Nat)
    (hcall : callContract cd = Except.ok data) (hlen : data.length ≠ 32) :
    StakeUnlockPenalty (Except.ok cd) callContract = (none, none) := by
  simp [StakeUnlockPenalty, hcall, hlen]

/-- Witness for c8_length_check_returns_nil_nil: a successful call
returning an empty byte slice yields the nil value and the nil error. -/
theorem c8_witness :
    StakeUnlockPenalty (Except.ok []) (fun _ => Except.ok []) = (none, none) :=
  c8_length_check_returns_nil_nil [] (fun _ => Except.ok []) [] rfl (by decide)

/-- C9: `PendingRewards` never returns a non-nil error; when the contract
call fails it returns the record with the given address, the given staker
id and a zero amount, and on success the same record with the fetched
amount. -/
theorem c9_pending_rewards_never_errors (addr valID : Nat)
    (callResult : Except GoError Nat) :
    (PendingRewards addr valID callResult).2 = none ∧
    (∀ e : GoError, callResult = Except.error e →
      (PendingRewards addr valID callResult).1 = ⟨addr, valID, 0⟩) ∧
    (∀ a : Nat, callResult = Except.ok a →
      (PendingRewards addr valID callResult).1 = ⟨addr, valID, a⟩) := by
  refine ⟨?_, fun e he => ?_, fun a ha => ?_⟩
  · cases callResult <;> rfl
  · rw [he]; rfl
  · rw [ha]; rfl

/-- Witness for c9_pending_rewards_never_errors on a failing and on a
succeeding contract call. -/
theorem c9_witness :
    (PendingRewards 3 4 (Except.error "rpc down")).2 = none ∧
    (PendingRewards 3 4 (Except.error "rpc down")).1 = ⟨3, 4, 0⟩ ∧
    (PendingRewards 3 4 (Except.ok 12)).1 = ⟨3, 4, 12⟩ :=
  ⟨(c9_pending_rewards_never_errors 3 4 (Except.error "rpc down")).1,
   (c9_pending_rewards_never_errors 3 4 (Except.error "rpc down")).2.1 "rpc down" rfl,
   (c9_pending_rewards_never_errors 3 4 (Except.ok 12)).2.2 12 rfl⟩

/-- C10 counterexample: at v = 2 the loop performs one division
(2 / 10 = 0 ≤ 1), so the computed correction is 1, while
floor(log10 2) = 0 — the claimed identity with floor(log10 v) for
v ≥ 2 fails. -/
theorem c10_counterexample :
    pullDefiDecimalCorrection 2 = 1 ∧ Nat.log 10 2 = 0 ∧
    pullDefiDecimalCorrection 2 ≠ Nat.log 10 2 := by
  have h2 : pullDefiDecimalCorrection 2 = 1 := by
    unfold pullDefiDecimalCorrection
    norm_num
    unfold pullDefiDecimalCorrection
    norm_num
  have hlog : Nat.log 10 2 = 0 := Nat.log_eq_zero_iff.mpr (Or.inl (by norm_num))
  exact ⟨h2, hlog, by rw [h2, hlog]; exact one_ne_zero⟩

/-- C10 (amended): the decimals correction terminates for every unsigned
value v (the embedding is a total function) and equals the number of times
v can be integer-divided by 10 before the result is at most 1, i.e. the
least k with v / 10^k ≤ 1 (0 for v ≤ 1). -/
theorem c10_decimal_correction_least_divisions (v : Nat) :
    v / 10 ^ pullDefiDecimalCorrection v ≤ 1 ∧
    ∀ k : Nat, k < pullDefiDecimalCorrection v → 1 < v / 10 ^ k := by
  induction v using Nat.strong_induction_on with
  | _ v ih =>
    unfold pullDefiDecimalCorrection
    split_ifs with h
    · obtain ⟨ih1, ih2⟩ := ih (v / 10) (Nat.div_lt_self (by omega) (by norm_num))
      constructor
      · rw [pow_succ', ← Nat.div_div_eq_div_mul]
        exact ih1
      · intro k hk
        cases k with
        | zero => simpa using h
        | succ j =>
            rw [pow_succ', ← Nat.div_div_eq_div_mul]
            exact ih2 j (by omega)
    · exact ⟨by simpa using Nat.le_of_not_lt h, fun k hk => absurd hk (by omega)⟩

/-- Witness for c10_decimal_correction_least_divisions at v = 20, where
the correction is 2: dividing once still leaves 2 > 1. -/
theorem c10_witness :
    20 / 10 ^ pullDefiDecimalCorrection 20 ≤ 1 ∧ 1 < 20 / 10 ^ 1 := by
  have h20 : pullDefiDecimalCorrection 20 = 2 := by
    unfold pullDefiDecimalCorrection
    norm_num
    unfold pullDefiDecimalCorrection
    norm_num
    unfold pullDefiDecimalCorrection
    norm_num
  exact ⟨(c10_decimal_correction_least_divisions 20).1,
    (c10_decimal_correction_least_divisions 20).2 1 (by rw [h20]; omega)⟩

end AxisGraphql
